import Mathlib

/-!
Shallow embedding of the Intel microcode staging mailbox driver
(arch/x86/kernel/cpu/microcode/intel_staging.c).

The hardware side is modelled as an oracle: a status-register stream per
transaction (one value per `readl` of the status register) and the four
response dwords delivered through the read-data register.  All machine
integers are `Nat` with explicit reduction modulo 2^32 (`r32`) wherever the
C code performs 32-bit arithmetic.  Register traffic is recorded as a trace
of `RegEvent`s so that ordering properties (framing order, read
acknowledgment) can be stated.
-/

namespace Staging

/-- 2^32, the modulus of `u32` arithmetic. -/
def U32 : Nat := 4294967296

/-- Truncation to a `u32` value. -/
def r32 (x : Nat) : Nat := x % U32

/-- x86 page size; `MBOX_XACTION_LEN` is `PAGE_SIZE`. -/
def PAGE_SIZE : Nat := 4096

def MSEC_PER_SEC : Nat := 1000

def MBOX_CONTROL_OFFSET : Nat := 0x0
def MBOX_STATUS_OFFSET : Nat := 0x4
def MBOX_WRDATA_OFFSET : Nat := 0x8
def MBOX_RDDATA_OFFSET : Nat := 0xc

/-- `BIT(0)`. -/
def MASK_MBOX_CTRL_ABORT : Nat := 1
/-- `BIT(31)`. -/
def MASK_MBOX_CTRL_GO : Nat := 2147483648

/-- `BIT(2)`. -/
def MASK_MBOX_STATUS_ERROR : Nat := 4
/-- `BIT(31)`. -/
def MASK_MBOX_STATUS_READY : Nat := 2147483648

/-- `BIT(0)`. -/
def MASK_MBOX_RESP_SUCCESS : Nat := 1
/-- `BIT(2)`. -/
def MASK_MBOX_RESP_ERROR : Nat := 4

def MBOX_CMD_LOAD : Nat := 0x3
def MBOX_OBJ_STAGING : Nat := 0xb
def PCI_VENDOR_ID_INTEL : Nat := 0x8086
/-- `PCI_VENDOR_ID_INTEL | (MBOX_OBJ_STAGING << 16)`. -/
def MBOX_HDR : Nat := PCI_VENDOR_ID_INTEL ||| (MBOX_OBJ_STAGING <<< 16)
def MBOX_HDR_SIZE : Nat := 16

def MBOX_XACTION_LEN : Nat := PAGE_SIZE
/-- `(imgsz) * 2` in `u32` arithmetic. -/
def MBOX_XACTION_MAX (imgsz : Nat) : Nat := r32 (imgsz * 2)
/-- `10 * MSEC_PER_SEC` polls of one millisecond each. -/
def MBOX_XACTION_TIMEOUT : Nat := 10 * MSEC_PER_SEC

def STAGING_OFFSET_END : Nat := 0xffffffff
/-- `(s) / sizeof(u32)`. -/
def DWORD_SIZE (s : Nat) : Nat := s / 4

/-- One MMIO access: a read or a write of a 32-bit value at a byte offset
from the mapped register base. -/
inductive RegEvent where
  | rd (off : Nat) (val : Nat)
  | wr (off : Nat) (val : Nat)
deriving DecidableEq, Repr

/-- `enum ucode_state` values used by this driver. -/
inductive UcodeState where
  | ok
  | error
  | timeout
deriving DecidableEq, Repr

/-- Value returned by `read_mbox_dword` when the device drives `v` on the
read-data register: `readl` yields the low 32 bits. -/
def read_mbox_val (v : Nat) : Nat := r32 v

/-- Register traffic of `read_mbox_dword`: the read of the read-data
register followed by the zero write acknowledging consumption. -/
def read_mbox_trace (v : Nat) : List RegEvent :=
  [RegEvent.rd MBOX_RDDATA_OFFSET (r32 v), RegEvent.wr MBOX_RDDATA_OFFSET 0]

/-- `write_mbox_dword`: one write to the write-data register. -/
def write_mbox_dword (v : Nat) : List RegEvent :=
  [RegEvent.wr MBOX_WRDATA_OFFSET (r32 v)]

/-- `abort_xaction`: write the abort bit to the control register. -/
def abort_xaction : List RegEvent :=
  [RegEvent.wr MBOX_CONTROL_OFFSET MASK_MBOX_CTRL_ABORT]

/-- `request_xaction(base, chunk, chunksize)`: header, payload dwords, then
the go strobe.  `chunk i` is the i-th payload dword (`chunk[i]` in C). -/
def request_xaction (chunk : Nat → Nat) (chunksize : Nat) : List RegEvent :=
  write_mbox_dword MBOX_HDR ++
  write_mbox_dword (DWORD_SIZE chunksize + DWORD_SIZE MBOX_HDR_SIZE) ++
  write_mbox_dword MBOX_CMD_LOAD ++
  write_mbox_dword 0 ++
  List.flatten ((List.range (DWORD_SIZE chunksize)).map (fun i => write_mbox_dword (chunk i))) ++
  [RegEvent.wr MBOX_CONTROL_OFFSET MASK_MBOX_CTRL_GO]

/-- The poll loop of `wait_for_xaction`.  `st j` is the value the status
register reads back on the j-th status read of this transaction.  Starting
at read index `i` with `fuel` remaining loop iterations, returns the index
of the post-loop status read (total number of in-loop reads performed). -/
def poll_reads (st : Nat → Nat) : Nat → Nat → Nat
  | 0, i => i
  | fuel + 1, i =>
    if r32 (st i) &&& MASK_MBOX_STATUS_READY ≠ 0 then i + 1
    else poll_reads st fuel (i + 1)

/-- Index of the status read performed after the poll loop. -/
def wait_post_idx (st : Nat → Nat) : Nat := poll_reads st MBOX_XACTION_TIMEOUT 0

/-- The status value examined after the poll loop. -/
def wait_post_status (st : Nat → Nat) : Nat := r32 (st (wait_post_idx st))

/-- `wait_for_xaction`: poll for ready up to the timeout budget, then
classify from a final status read: error bit dominates, then ready, else
timeout. -/
def wait_for_xaction (st : Nat → Nat) : UcodeState :=
  if wait_post_status st &&& MASK_MBOX_STATUS_ERROR ≠ 0 then UcodeState.error
  else if wait_post_status st &&& MASK_MBOX_STATUS_READY = 0 then UcodeState.timeout
  else UcodeState.ok

/-- Register traffic of `wait_for_xaction`: the in-loop status reads and
the final post-loop status read, in order. -/
def wait_trace (st : Nat → Nat) : List RegEvent :=
  (List.range (wait_post_idx st + 1)).map (fun i => RegEvent.rd MBOX_STATUS_OFFSET (r32 (st i)))

/-- The hardware side of one transaction: the status-register stream
observed while waiting, and the four response dwords delivered through the
read-data register. -/
structure Resp where
  statuses : Nat → Nat
  id : Nat
  hdrlen : Nat
  nextOffset : Nat
  flags : Nat

/-- Result of `read_xaction_response`: returned state, the offset stored
through the `offset` out-parameter, whether a `WARN_ON_ONCE` header
mismatch diagnostic fired, and the register traffic. -/
structure RespResult where
  state : UcodeState
  offset : Nat
  warned : Bool
  trace : List RegEvent

/-- `read_xaction_response`: consume four dwords (identifier, header
length, next offset, flags); identifier/length mismatches only trigger
`WARN_ON_ONCE`; the third dword is always stored to `*offset`; the flag
word's error bit decides the return value. -/
def read_xaction_response (r : Resp) : RespResult :=
  { state :=
      if read_mbox_val r.flags &&& MASK_MBOX_RESP_ERROR ≠ 0 then UcodeState.error
      else UcodeState.ok
    offset := read_mbox_val r.nextOffset
    warned :=
      decide (read_mbox_val r.id ≠ MBOX_HDR) ||
      decide (read_mbox_val r.hdrlen ≠ DWORD_SIZE MBOX_HDR_SIZE)
    trace :=
      read_mbox_trace r.id ++ read_mbox_trace r.hdrlen ++
      read_mbox_trace r.nextOffset ++ read_mbox_trace r.flags }

/-- `get_chunksize`: `min(MBOX_XACTION_LEN, totalsize - offset)` with the
subtraction performed in `u32` arithmetic (it wraps when
`offset > totalsize`). -/
def u32_sub (a b : Nat) : Nat := (a + U32 - b % U32) % U32

def get_chunksize (totalsize offset : Nat) : Nat :=
  min MBOX_XACTION_LEN (u32_sub totalsize offset)

/-- The `WARN_ON_ONCE(totalsize < offset)` diagnostic in `get_chunksize`. -/
def get_chunksize_warns (totalsize offset : Nat) : Bool :=
  decide (totalsize < offset)

/-- Outcome of the transfer loop of `staging_work`.
`result` is the `state` the loop breaks (or falls) out with, `none` when
the given iteration fuel is exhausted before the loop exits (the C loop
has no fuel: `none` models non-termination within that bound).
`chunks` lists the `chunksize` argument of every `request_xaction` call
performed, in order.  `done` is true exactly when the loop exited through
its `while` condition (`offset == STAGING_OFFSET_END`).  `finalOffset` is
the value of `offset` when the loop exits, and `trace` the register
traffic of the loop body. -/
structure LoopResult where
  result : Option UcodeState
  chunks : List Nat
  done : Bool
  finalOffset : Nat
  trace : List RegEvent

/-- The `while (offset != STAGING_OFFSET_END)` loop of `staging_work`,
iterating from loop state (`offset`, `xaction_bytes`, transaction index
`i`).  `oracle i` is the hardware's behavior on the i-th transaction and
`mem a` the payload dword at byte address `a` (`ucode_ptr + a` in C). All
additions are `u32` (wrap modulo 2^32), exactly as in the source. -/
def staging_loop (oracle : Nat → Resp) (mem : Nat → Nat) (totalsize : Nat) :
    Nat → Nat → Nat → Nat → LoopResult
  | 0, offset, _, _ =>
    { result := none, chunks := [], done := false, finalOffset := offset, trace := [] }
  | fuel + 1, offset, xaction_bytes, i =>
    if offset = STAGING_OFFSET_END then
      { result := some UcodeState.ok, chunks := [], done := true,
        finalOffset := offset, trace := [] }
    else
      let chunksize := get_chunksize totalsize offset
      if r32 (xaction_bytes + chunksize) > MBOX_XACTION_MAX totalsize then
        { result := some UcodeState.timeout, chunks := [], done := false,
          finalOffset := offset, trace := [] }
      else
        let reqT := request_xaction (fun j => mem (offset + 4 * j)) chunksize
        let r := oracle i
        let ws := wait_for_xaction r.statuses
        if ws ≠ UcodeState.ok then
          { result := some ws, chunks := [chunksize], done := false,
            finalOffset := offset, trace := reqT ++ wait_trace r.statuses }
        else
          let rr := read_xaction_response r
          if rr.state ≠ UcodeState.ok then
            { result := some rr.state, chunks := [chunksize], done := false,
              finalOffset := rr.offset,
              trace := reqT ++ wait_trace r.statuses ++ rr.trace }
          else
            let rest := staging_loop oracle mem totalsize fuel rr.offset
              (r32 (xaction_bytes + chunksize)) (i + 1)
            { result := rest.result, chunks := chunksize :: rest.chunks,
              done := rest.done, finalOffset := rest.finalOffset,
              trace := reqT ++ wait_trace r.statuses ++ rr.trace ++ rest.trace }

/-- `staging_work(mmio_pa, ucode_ptr, totalsize)`.  `map_ok` is whether
`ioremap` of the 16-byte register window succeeded.  Returns the boolean
result (`none` when the loop does not finish within `fuel` iterations)
paired with the register traffic performed. -/
def staging_work (map_ok : Bool) (oracle : Nat → Resp) (mem : Nat → Nat)
    (totalsize fuel : Nat) : Option Bool × List RegEvent :=
  if map_ok = false then (some false, [])
  else
    let run := staging_loop oracle mem totalsize fuel 0 0 0
    (run.result.map (fun state => state == UcodeState.ok), abort_xaction ++ run.trace)

/-! ### Concrete hardware behaviors used as test oracles -/

/-- A status stream that reports ready (bit 31) on every read. -/
def allReady : Nat → Nat := fun _ => MASK_MBOX_STATUS_READY

/-- A status stream that never reports ready and never reports an error. -/
def neverReady : Nat → Nat := fun _ => 0

/-- Hardware that is always immediately ready, echoes the expected header,
reports success, but always claims next offset 0 (no progress). -/
def zeroRespOracle : Nat → Resp := fun _ =>
  { statuses := allReady, id := MBOX_HDR, hdrlen := DWORD_SIZE MBOX_HDR_SIZE,
    nextOffset := 0, flags := MASK_MBOX_RESP_SUCCESS }

/-- Hardware that never becomes ready. -/
def stuckOracle : Nat → Resp := fun _ =>
  { statuses := neverReady, id := 0, hdrlen := 0, nextOffset := 0, flags := 0 }

/-- Well-behaved hardware for a payload of `S` bytes: always immediately
ready, success flags, and in-sequence next offsets — one page further each
transaction, with the sentinel once the whole payload is consumed. -/
def goodOracle (S : Nat) : Nat → Resp := fun i =>
  { statuses := allReady, id := MBOX_HDR, hdrlen := DWORD_SIZE MBOX_HDR_SIZE,
    nextOffset :=
      if MBOX_XACTION_LEN * (i + 1) < S then MBOX_XACTION_LEN * (i + 1)
      else STAGING_OFFSET_END,
    flags := MASK_MBOX_RESP_SUCCESS }

/-- An all-zero payload memory. -/
def memZ : Nat → Nat := fun _ => 0

/-! ### Basic lemmas -/

theorem and_two_pow_ne_zero (n i : Nat) : n &&& 2 ^ i ≠ 0 ↔ n.testBit i := by
  rw [Nat.and_two_pow]
  cases h : n.testBit i <;> simp [h]

theorem and_err_ne_zero (n : Nat) : n &&& MASK_MBOX_STATUS_ERROR ≠ 0 ↔ n.testBit 2 := by
  have := and_two_pow_ne_zero n 2
  simpa [MASK_MBOX_STATUS_ERROR] using this

theorem and_ready_ne_zero (n : Nat) : n &&& MASK_MBOX_STATUS_READY ≠ 0 ↔ n.testBit 31 := by
  have := and_two_pow_ne_zero n 31
  simpa [MASK_MBOX_STATUS_READY] using this

theorem flatten_map_single {α β : Type} (f : α → β) (l : List α) :
    (l.map (fun a => [f a])).flatten = l.map f := by
  induction l with
  | nil => rfl
  | cons a t ih => simp [ih]

/-! ### C4: completion-wait classification, error dominates -/

/-- C4: on the post-loop status read, the error bit (bit 2) forces ERROR
even when the ready bit (bit 31) is concurrently set; OK requires ready
set and error clear; otherwise TIMEOUT. -/
theorem C4_wait_classification (st : Nat → Nat) :
    (wait_for_xaction st = UcodeState.error ↔ (wait_post_status st).testBit 2) ∧
    (wait_for_xaction st = UcodeState.ok ↔
      ((wait_post_status st).testBit 31 ∧ ¬ (wait_post_status st).testBit 2)) ∧
    (wait_for_xaction st = UcodeState.timeout ↔
      (¬ (wait_post_status st).testBit 31 ∧ ¬ (wait_post_status st).testBit 2)) := by
  have he := and_err_ne_zero (wait_post_status st)
  have hr := and_ready_ne_zero (wait_post_status st)
  unfold wait_for_xaction
  by_cases h1 : wait_post_status st &&& MASK_MBOX_STATUS_ERROR ≠ 0
  · have hE := he.mp h1
    simp [h1, hE]
  · have hE : ¬ (wait_post_status st).testBit 2 = true := fun hb => h1 (he.mpr hb)
    by_cases h2 : wait_post_status st &&& MASK_MBOX_STATUS_READY = 0
    · have hR : ¬ (wait_post_status st).testBit 31 = true := fun hb => (hr.mpr hb) h2
      simp [h1, h2, hE, hR]
    · have hR : (wait_post_status st).testBit 31 = true := hr.mp h2
      simp [h1, h2, hE, hR]

/-! ### C6: request framing order -/

/-- C6: `request_xaction` writes, in order, the identifier `MBOX_HDR`, the
total length `chunksize/4 + 4`, the LOAD command `0x3`, a zero reserved
word, then the `chunksize/4` payload dwords, all to the write-data
register, and only then strobes the go bit on the control register. -/
theorem C6_request_framing (chunk : Nat → Nat) (chunksize : Nat)
    (h : chunksize ≤ MBOX_XACTION_LEN) :
    request_xaction chunk chunksize =
      [RegEvent.wr MBOX_WRDATA_OFFSET MBOX_HDR,
       RegEvent.wr MBOX_WRDATA_OFFSET (chunksize / 4 + 4),
       RegEvent.wr MBOX_WRDATA_OFFSET MBOX_CMD_LOAD,
       RegEvent.wr MBOX_WRDATA_OFFSET 0] ++
      (List.range (chunksize / 4)).map
        (fun i => RegEvent.wr MBOX_WRDATA_OFFSET (r32 (chunk i))) ++
      [RegEvent.wr MBOX_CONTROL_OFFSET MASK_MBOX_CTRL_GO] := by
  have hlen : r32 (chunksize / 4 + DWORD_SIZE MBOX_HDR_SIZE) =
      chunksize / 4 + 4 := by
    have : chunksize ≤ 4096 := h
    unfold r32 U32 DWORD_SIZE MBOX_HDR_SIZE
    omega
  unfold request_xaction write_mbox_dword
  rw [flatten_map_single]
  simp [hlen, show r32 MBOX_HDR = MBOX_HDR from rfl,
    show r32 MBOX_CMD_LOAD = MBOX_CMD_LOAD from rfl, show r32 0 = 0 from rfl,
    show DWORD_SIZE chunksize = chunksize / 4 from rfl]

/-- Witness for C6 at a concrete chunk. -/
theorem C6_request_framing_witness :
    (8 ≤ MBOX_XACTION_LEN) ∧
    request_xaction (fun i => i + 5) 8 =
      [RegEvent.wr MBOX_WRDATA_OFFSET MBOX_HDR,
       RegEvent.wr MBOX_WRDATA_OFFSET 6,
       RegEvent.wr MBOX_WRDATA_OFFSET MBOX_CMD_LOAD,
       RegEvent.wr MBOX_WRDATA_OFFSET 0,
       RegEvent.wr MBOX_WRDATA_OFFSET 5,
       RegEvent.wr MBOX_WRDATA_OFFSET 6,
       RegEvent.wr MBOX_CONTROL_OFFSET MASK_MBOX_CTRL_GO] := by
  refine ⟨by decide, ?_⟩
  rw [C6_request_framing (fun i => i + 5) 8 (by decide)]
  decide

/-! ### C7: response decoder -/

/-- C7: the response decoder consumes exactly four dwords from the
read-data register in fixed order (identifier, header length, next
offset, flags); the next-offset word is always stored to the caller's
cursor; the returned state is ERROR exactly when bit 2 of the flag word
is set and OK otherwise (so identifier/header-length mismatches, surfaced
only through the `warned` diagnostic, never abort the transfer). -/
theorem C7_response_decoder (r : Resp) :
    ((read_xaction_response r).state = UcodeState.error ↔ (r32 r.flags).testBit 2) ∧
    ((read_xaction_response r).state = UcodeState.ok ↔ ¬ (r32 r.flags).testBit 2) ∧
    (read_xaction_response r).offset = r32 r.nextOffset ∧
    (read_xaction_response r).trace =
      [RegEvent.rd MBOX_RDDATA_OFFSET (r32 r.id), RegEvent.wr MBOX_RDDATA_OFFSET 0,
       RegEvent.rd MBOX_RDDATA_OFFSET (r32 r.hdrlen), RegEvent.wr MBOX_RDDATA_OFFSET 0,
       RegEvent.rd MBOX_RDDATA_OFFSET (r32 r.nextOffset), RegEvent.wr MBOX_RDDATA_OFFSET 0,
       RegEvent.rd MBOX_RDDATA_OFFSET (r32 r.flags), RegEvent.wr MBOX_RDDATA_OFFSET 0] ∧
    ((read_xaction_response r).warned = true ↔
      (r32 r.id ≠ MBOX_HDR ∨ r32 r.hdrlen ≠ DWORD_SIZE MBOX_HDR_SIZE)) := by
  have he : r32 r.flags &&& MASK_MBOX_RESP_ERROR ≠ 0 ↔ (r32 r.flags).testBit 2 := by
    have := and_two_pow_ne_zero (r32 r.flags) 2
    simpa [MASK_MBOX_RESP_ERROR] using this
  by_cases hE : (r32 r.flags).testBit 2 <;>
    simp [read_xaction_response, read_mbox_val, read_mbox_trace, he, hE]

/-! ### C10: get_chunksize wraparound -/

/-- C10 counterexample: at `totalsize = 0`, `offset = 0xfffffffe` (greater
than totalsize and not the sentinel) the wrapped subtraction yields 2, not
the full transaction limit of one page. -/
theorem C10_counterexample :
    0 < 4294967294 ∧ (4294967294 : Nat) ≠ STAGING_OFFSET_END ∧
    get_chunksize 0 4294967294 = 2 ∧
    get_chunksize 0 4294967294 ≠ MBOX_XACTION_LEN := by
  refine ⟨by decide, by decide, ?_, ?_⟩ <;> decide

/-- C10 amended: when a decoded next-offset exceeds `totalsize` (and is
not the sentinel), the u32 subtraction in `get_chunksize` wraps modulo
2^32, giving `min(page, 2^32 - (offset - totalsize))` — a nonzero chunk
that equals the full transaction limit whenever `offset - totalsize` is at
most `2^32 -` one page — and the `WARN_ON_ONCE` diagnostic fires. -/
theorem C10_amended_wrap (S off : Nat) (hS : S < off) (hoff : off < U32)
    (_hend : off ≠ STAGING_OFFSET_END) :
    get_chunksize S off = min MBOX_XACTION_LEN (U32 - (off - S)) ∧
    0 < get_chunksize S off ∧
    get_chunksize_warns S off = true ∧
    (off - S ≤ U32 - MBOX_XACTION_LEN → get_chunksize S off = MBOX_XACTION_LEN) := by
  have hU : U32 = 4294967296 := rfl
  have h1 : u32_sub S off = U32 - (off - S) := by
    unfold u32_sub
    rw [hU] at hoff ⊢
    omega
  have h2 : get_chunksize S off = min MBOX_XACTION_LEN (U32 - (off - S)) := by
    unfold get_chunksize
    rw [h1]
  refine ⟨h2, ?_, ?_, ?_⟩
  · rw [h2]
    unfold MBOX_XACTION_LEN PAGE_SIZE
    rw [hU] at hoff ⊢
    omega
  · simp [get_chunksize_warns, hS]
  · intro hle
    rw [h2]
    unfold MBOX_XACTION_LEN PAGE_SIZE at hle ⊢
    rw [hU] at hoff hle ⊢
    omega

/-- Witness for C10 at `totalsize = 5`, `offset = 10000`. -/
theorem C10_amended_wrap_witness :
    5 < 10000 ∧ 10000 < U32 ∧ (10000 : Nat) ≠ STAGING_OFFSET_END ∧
    (get_chunksize 5 10000 = min MBOX_XACTION_LEN (U32 - (10000 - 5)) ∧
     0 < get_chunksize 5 10000 ∧
     get_chunksize_warns 5 10000 = true ∧
     (10000 - 5 ≤ U32 - MBOX_XACTION_LEN → get_chunksize 5 10000 = MBOX_XACTION_LEN)) := by
  refine ⟨by decide, by decide, by decide, ?_⟩
  exact C10_amended_wrap 5 10000 (by decide) (by decide) (by decide)

/-! ### C1: entry-point result -/

theorem loop_ok_iff_done (oracle : Nat → Resp) (mem : Nat → Nat) (S : Nat) :
    ∀ fuel off xb i,
      ((staging_loop oracle mem S fuel off xb i).result = some UcodeState.ok ↔
        (staging_loop oracle mem S fuel off xb i).done = true) := by
  intro fuel
  induction fuel with
  | zero => intro off xb i; simp [staging_loop]
  | succ n ih =>
    intro off xb i
    by_cases h1 : off = STAGING_OFFSET_END
    · simp [staging_loop, h1]
    · by_cases h2 : r32 (xb + get_chunksize S off) > MBOX_XACTION_MAX S
      · simp [staging_loop, h1, h2]
      · by_cases h3 : wait_for_xaction (oracle i).statuses ≠ UcodeState.ok
        · simp [staging_loop, h1, h2, h3]
        · by_cases h4 : (read_xaction_response (oracle i)).state ≠ UcodeState.ok
          · simp [staging_loop, h1, h2, h3, h4]
          · simp [staging_loop, h1, h2, h3, h4, ih]

/-- C1: with the register window mapped, `staging_work` returns true
exactly when the transfer loop exits through its `while` condition (the
decoded next-offset became the sentinel, every transaction OK), returns
false exactly when the loop breaks out with a non-OK state, and on a
mapping failure returns false with no register access at all. -/
theorem C1_staging_work_result (oracle : Nat → Resp) (mem : Nat → Nat) (S fuel : Nat) :
    staging_work false oracle mem S fuel = (some false, []) ∧
    ((staging_work true oracle mem S fuel).fst = some true ↔
      (staging_loop oracle mem S fuel 0 0 0).done = true) ∧
    ((staging_work true oracle mem S fuel).fst = some false ↔
      (∃ state, (staging_loop oracle mem S fuel 0 0 0).result = some state ∧
        state ≠ UcodeState.ok)) := by
  refine ⟨rfl, ?_, ?_⟩
  · rw [← loop_ok_iff_done]
    cases h : (staging_loop oracle mem S fuel 0 0 0).result with
    | none => simp [staging_work, h]
    | some state => cases state <;> simp [staging_work, h]
  · cases h : (staging_loop oracle mem S fuel 0 0 0).result with
    | none => simp [staging_work, h]
    | some state => cases state <;> simp [staging_work, h]

/-! ### C5: never-ready status stream gives TIMEOUT -/

theorem poll_reads_never (st : Nat → Nat) :
    ∀ fuel i, (∀ j, i ≤ j → j < i + fuel → r32 (st j) &&& MASK_MBOX_STATUS_READY = 0) →
      poll_reads st fuel i = i + fuel := by
  intro fuel
  induction fuel with
  | zero => intro i _; simp [poll_reads]
  | succ n ih =>
    intro i h
    have h0 : r32 (st i) &&& MASK_MBOX_STATUS_READY = 0 := h i (Nat.le_refl i) (by omega)
    have hrec := ih (i + 1) (fun j hj1 hj2 => h j (by omega) (by omega))
    simp [poll_reads, h0, hrec]
    omega

/-- C5: if the ready bit is never observed set on any of the 10,000
in-loop status reads nor on the post-loop read (and the error bit is
absent there), the completion wait classifies the transaction TIMEOUT,
and the transfer loop fails with that TIMEOUT classification, making
`staging_work` return false. -/
theorem C5_timeout (oracle : Nat → Resp) (mem : Nat → Nat) (S fuel : Nat)
    (hS1 : 1 ≤ S) (hS2 : 2 * S < U32)
    (hready : ∀ j, j ≤ MBOX_XACTION_TIMEOUT →
      r32 ((oracle 0).statuses j) &&& MASK_MBOX_STATUS_READY = 0)
    (herr : r32 ((oracle 0).statuses MBOX_XACTION_TIMEOUT) &&& MASK_MBOX_STATUS_ERROR = 0) :
    wait_for_xaction (oracle 0).statuses = UcodeState.timeout ∧
    (staging_loop oracle mem S (fuel + 1) 0 0 0).result = some UcodeState.timeout ∧
    (staging_work true oracle mem S (fuel + 1)).fst = some false := by
  have hidx : wait_post_idx (oracle 0).statuses = MBOX_XACTION_TIMEOUT := by
    unfold wait_post_idx
    have := poll_reads_never (oracle 0).statuses MBOX_XACTION_TIMEOUT 0
      (fun j hj1 hj2 => hready j (by omega))
    simpa using this
  have hwait : wait_for_xaction (oracle 0).statuses = UcodeState.timeout := by
    unfold wait_for_xaction wait_post_status
    rw [hidx]
    simp [herr, hready MBOX_XACTION_TIMEOUT (Nat.le_refl _)]
  have hU : U32 = 4294967296 := rfl
  rw [hU] at hS2
  have hchunk : get_chunksize S 0 ≤ S := by
    unfold get_chunksize u32_sub U32
    have h0 : (S + 4294967296 - 0 % 4294967296) % 4294967296 = S := by omega
    rw [h0]
    exact Nat.min_le_right _ _
  have hguard : ¬ MBOX_XACTION_MAX S < r32 (get_chunksize S 0) := by
    have hmax : MBOX_XACTION_MAX S = 2 * S := by
      unfold MBOX_XACTION_MAX r32 U32
      omega
    have hex : r32 (get_chunksize S 0) = get_chunksize S 0 := by
      unfold r32 U32
      omega
    rw [hex, hmax]
    omega
  have hloop : (staging_loop oracle mem S (fuel + 1) 0 0 0).result =
      some UcodeState.timeout := by
    simp only [staging_loop]
    have h1 : ¬ (0 = STAGING_OFFSET_END) := by decide
    simp [h1, hguard, hwait]
  refine ⟨hwait, hloop, ?_⟩
  simp [staging_work, hloop]

/-- Witness for C5: a hardware side that always reads status 0. -/
theorem C5_timeout_witness :
    wait_for_xaction (stuckOracle 0).statuses = UcodeState.timeout ∧
    (staging_loop stuckOracle memZ 4 1 0 0 0).result = some UcodeState.timeout ∧
    (staging_work true stuckOracle memZ 4 1).fst = some false :=
  C5_timeout stuckOracle memZ 4 0 (by decide) (by decide)
    (fun j _ => by
      change r32 0 &&& MASK_MBOX_STATUS_READY = 0
      decide)
    (by decide)

/-! ### C9: every read-data read is immediately acknowledged -/

/-- Whether an event is a read of the read-data register. -/
def isRdData : RegEvent → Bool
  | RegEvent.rd off _ => off == MBOX_RDDATA_OFFSET
  | RegEvent.wr _ _ => false

/-- `ackHead e rest` holds when `e`, followed by `rest`, respects the read
acknowledgment rule: a read of the read-data register must be immediately
followed by a zero write to that register. -/
def ackHead : RegEvent → List RegEvent → Bool
  | RegEvent.rd off _, rest =>
    if off = MBOX_RDDATA_OFFSET then
      match rest with
      | RegEvent.wr off2 v :: _ => off2 == MBOX_RDDATA_OFFSET && v == 0
      | _ => false
    else true
  | RegEvent.wr _ _, _ => true

/-- Every read of the read-data register in the list is immediately
followed by a zero write to it. -/
def ackOk : List RegEvent → Bool
  | [] => true
  | e :: rest => ackHead e rest && ackOk rest

theorem ackOk_append_of_no_rd (xs ys : List RegEvent)
    (h : ∀ e ∈ xs, isRdData e = false) : ackOk (xs ++ ys) = ackOk ys := by
  induction xs with
  | nil => rfl
  | cons e t ih =>
    have he : isRdData e = false := h e (by simp)
    have ht : ∀ x ∈ t, isRdData x = false := fun x hx => h x (by simp [hx])
    cases e with
    | wr o v => simp [ackOk, ackHead, ih ht]
    | rd o v =>
      have ho : ¬ o = MBOX_RDDATA_OFFSET := by simpa [isRdData] using he
      simp [ackOk, ackHead, ho, ih ht]

theorem ackOk_of_no_rd (xs : List RegEvent)
    (h : ∀ e ∈ xs, isRdData e = false) : ackOk xs = true := by
  have := ackOk_append_of_no_rd xs [] h
  simpa using this

theorem ackOk_pair_cons (v : Nat) (ys : List RegEvent) :
    ackOk (RegEvent.rd MBOX_RDDATA_OFFSET v :: RegEvent.wr MBOX_RDDATA_OFFSET 0 :: ys) =
      ackOk ys := by
  simp [ackOk, ackHead]

theorem ackOk_read_mbox (v : Nat) (ys : List RegEvent) :
    ackOk (read_mbox_trace v ++ ys) = ackOk ys := by
  simpa [read_mbox_trace] using ackOk_pair_cons (r32 v) ys

theorem ackOk_resp_trace (r : Resp) (ys : List RegEvent) :
    ackOk ((read_xaction_response r).trace ++ ys) = ackOk ys := by
  show ackOk ((read_mbox_trace r.id ++ read_mbox_trace r.hdrlen ++
    read_mbox_trace r.nextOffset ++ read_mbox_trace r.flags) ++ ys) = ackOk ys
  rw [List.append_assoc, List.append_assoc, List.append_assoc,
    ackOk_read_mbox, ackOk_read_mbox, ackOk_read_mbox, ackOk_read_mbox]

theorem request_no_rd (chunk : Nat → Nat) (n : Nat) :
    ∀ e ∈ request_xaction chunk n, isRdData e = false := by
  intro e he
  simp [request_xaction, write_mbox_dword, List.mem_append, List.mem_flatten,
    List.mem_map, List.mem_range] at he
  rcases he with h | h | h | h | ⟨a, _, h⟩ | h <;> subst h <;> rfl

theorem wait_no_rd (st : Nat → Nat) :
    ∀ e ∈ wait_trace st, isRdData e = false := by
  intro e he
  simp [wait_trace, List.mem_map, List.mem_range] at he
  obtain ⟨i, _, h⟩ := he
  subst h
  rfl

theorem loop_ackOk (oracle : Nat → Resp) (mem : Nat → Nat) (S : Nat) :
    ∀ fuel off xb i, ackOk (staging_loop oracle mem S fuel off xb i).trace = true := by
  intro fuel
  induction fuel with
  | zero => intro off xb i; simp [staging_loop, ackOk]
  | succ n ih =>
    intro off xb i
    by_cases h1 : off = STAGING_OFFSET_END
    · simp [staging_loop, h1, ackOk]
    · by_cases h2 : r32 (xb + get_chunksize S off) > MBOX_XACTION_MAX S
      · simp [staging_loop, h1, h2, ackOk]
      · have hreqwait : ∀ e ∈ request_xaction (fun j => mem (off + 4 * j))
            (get_chunksize S off) ++ wait_trace (oracle i).statuses, isRdData e = false := by
          intro e he
          rcases List.mem_append.mp he with h | h
          · exact request_no_rd _ _ e h
          · exact wait_no_rd _ e h
        by_cases h3 : wait_for_xaction (oracle i).statuses ≠ UcodeState.ok
        · simp [staging_loop, h1, h2, h3]
          rw [ackOk_append_of_no_rd _ _ (request_no_rd _ _)]
          exact ackOk_of_no_rd _ (wait_no_rd _)
        · by_cases h4 : (read_xaction_response (oracle i)).state ≠ UcodeState.ok
          · simp [staging_loop, h1, h2, h3, h4]
            rw [ackOk_append_of_no_rd _ _ (request_no_rd _ _),
              ackOk_append_of_no_rd _ _ (wait_no_rd _)]
            have := ackOk_resp_trace (oracle i) []
            simpa using this
          · simp [staging_loop, h1, h2, h3, h4]
            rw [ackOk_append_of_no_rd _ _ (request_no_rd _ _),
              ackOk_append_of_no_rd _ _ (wait_no_rd _), ackOk_resp_trace]
            exact ih _ _ _

theorem ackOk_spec (xs : List RegEvent) :
    ackOk xs = true → ∀ k v, xs[k]? = some (RegEvent.rd MBOX_RDDATA_OFFSET v) →
      xs[k + 1]? = some (RegEvent.wr MBOX_RDDATA_OFFSET 0) := by
  induction xs with
  | nil => intro _ k v h; simp at h
  | cons e t ih =>
    intro hack k v h
    have hsplit : ackHead e t = true ∧ ackOk t = true := by
      simpa [ackOk, Bool.and_eq_true] using hack
    cases k with
    | zero =>
      simp at h
      subst h
      cases t with
      | nil => simp [ackHead] at hsplit
      | cons e2 t2 =>
        cases e2 with
        | rd o2 v2 => simp [ackHead] at hsplit
        | wr o2 v2 =>
          have h2 := hsplit.1
          simp [ackHead] at h2
          simp [h2.1, h2.2]
    | succ m =>
      simp only [List.getElem?_cons_succ] at h ⊢
      exact ih hsplit.2 m v h

/-- C9: in every run of `staging_work`, every read of the read-data
register (offset 0xc) is immediately followed by a zero write to that
register: whenever the k-th event of the register trace is such a read,
the (k+1)-th event is the acknowledging zero write. -/
theorem C9_read_ack (map_ok : Bool) (oracle : Nat → Resp) (mem : Nat → Nat)
    (S fuel k v : Nat)
    (h : (staging_work map_ok oracle mem S fuel).snd[k]? =
      some (RegEvent.rd MBOX_RDDATA_OFFSET v)) :
    (staging_work map_ok oracle mem S fuel).snd[k + 1]? =
      some (RegEvent.wr MBOX_RDDATA_OFFSET 0) := by
  have hack : ackOk (staging_work map_ok oracle mem S fuel).snd = true := by
    cases map_ok with
    | false => rfl
    | true =>
      show ackOk (abort_xaction ++ (staging_loop oracle mem S fuel 0 0 0).trace) = true
      rw [ackOk_append_of_no_rd _ _ (fun e he => by
        simp [abort_xaction] at he
        subst he
        rfl)]
      exact loop_ackOk oracle mem S fuel 0 0 0
  exact ackOk_spec _ hack k v h

/-- Witness for C9: a concrete run whose trace contains a read-data read
(the identifier word of the first response) at index 9, acknowledged at
index 10. -/
theorem C9_read_ack_witness :
    (staging_work true (goodOracle 4) memZ 4 2).snd[9]? =
      some (RegEvent.rd MBOX_RDDATA_OFFSET 753798) ∧
    (staging_work true (goodOracle 4) memZ 4 2).snd[10]? =
      some (RegEvent.wr MBOX_RDDATA_OFFSET 0) :=
  ⟨by decide, C9_read_ack true (goodOracle 4) memZ 4 2 9 753798 (by decide)⟩

/-! ### C2 and C3: the 2x byte budget, and loop termination -/

theorem get_chunksize_le_len (S off : Nat) : get_chunksize S off ≤ MBOX_XACTION_LEN :=
  Nat.min_le_left _ _

theorem wait_allReady : wait_for_xaction allReady = UcodeState.ok := by decide

theorem resp_offset (r : Resp) :
    (read_xaction_response r).offset = r32 r.nextOffset := rfl

theorem zeroResp_state (i : Nat) :
    (read_xaction_response (zeroRespOracle i)).state = UcodeState.ok := by
  rw [show zeroRespOracle i = zeroRespOracle 0 from rfl]
  decide

theorem zeroResp_offset (i : Nat) :
    (read_xaction_response (zeroRespOracle i)).offset = 0 := by
  rw [show zeroRespOracle i = zeroRespOracle 0 from rfl]
  decide

/-- C2 amended: provided `2*totalsize +` one page `< 2^32` (so the u32
budget comparison cannot wrap), the running byte count plus everything the
loop will still transmit stays within twice the payload size; and whenever
the next chunk would cross that budget, the loop stops at once — FAILED
with the TIMEOUT classification — transmitting nothing (no
`request_xaction` call, empty register trace). -/
theorem C2_amended_budget (oracle : Nat → Resp) (mem : Nat → Nat) (S : Nat)
    (hS : 2 * S + MBOX_XACTION_LEN < U32) :
    (∀ fuel off xb i, xb ≤ 2 * S →
      xb + (staging_loop oracle mem S fuel off xb i).chunks.sum ≤ 2 * S) ∧
    (∀ fuel off xb i, off ≠ STAGING_OFFSET_END → xb ≤ 2 * S →
      2 * S < xb + get_chunksize S off →
      staging_loop oracle mem S (fuel + 1) off xb i =
        { result := some UcodeState.timeout, chunks := [], done := false,
          finalOffset := off, trace := [] }) := by
  have hU : U32 = 4294967296 := rfl
  have hlen : MBOX_XACTION_LEN = 4096 := rfl
  rw [hU, hlen] at hS
  have hmax : MBOX_XACTION_MAX S = 2 * S := by
    unfold MBOX_XACTION_MAX r32 U32
    omega
  have hexact : ∀ off xb, xb ≤ 2 * S →
      r32 (xb + get_chunksize S off) = xb + get_chunksize S off := by
    intro off xb hxb
    have hc := get_chunksize_le_len S off
    rw [hlen] at hc
    unfold r32 U32
    omega
  constructor
  · intro fuel
    induction fuel with
    | zero => intro off xb i hxb; simpa [staging_loop] using hxb
    | succ n ih =>
      intro off xb i hxb
      by_cases h1 : off = STAGING_OFFSET_END
      · simpa [staging_loop, h1] using hxb
      · by_cases h2 : r32 (xb + get_chunksize S off) > MBOX_XACTION_MAX S
        · simpa [staging_loop, h1, h2] using hxb
        · have hle : xb + get_chunksize S off ≤ 2 * S := by
            have h2c := h2
            rw [hexact off xb hxb, hmax] at h2c
            omega
          by_cases h3 : wait_for_xaction (oracle i).statuses ≠ UcodeState.ok
          · simp [staging_loop, h1, h2, h3]
            omega
          · by_cases h4 : (read_xaction_response (oracle i)).state ≠ UcodeState.ok
            · simp [staging_loop, h1, h2, h3, h4]
              omega
            · have ihc := ih (read_xaction_response (oracle i)).offset
                (r32 (xb + get_chunksize S off)) (i + 1)
                (by rw [hexact off xb hxb]; exact hle)
              have hex := hexact off xb hxb
              simp [staging_loop, h1, h2, h3, h4]
              omega
  · intro fuel off xb i hoff hxb hcross
    have hg : r32 (xb + get_chunksize S off) > MBOX_XACTION_MAX S := by
      rw [hexact off xb hxb, hmax]
      omega
    simp [staging_loop, hoff, hg]

/-- Witness for C2 at `totalsize = 10`: the running count stays within 20
bytes, and from a loop state 15 bytes in, a further 10-byte chunk (25 > 20)
makes the loop fail TIMEOUT without transmitting. -/
theorem C2_amended_budget_witness :
    (2 * 10 + MBOX_XACTION_LEN < U32) ∧
    (0 + (staging_loop zeroRespOracle memZ 10 1 0 0 0).chunks.sum ≤ 2 * 10) ∧
    (staging_loop zeroRespOracle memZ 10 1 0 15 0 =
      { result := some UcodeState.timeout, chunks := [], done := false,
        finalOffset := 0, trace := [] }) :=
  ⟨by decide,
   (C2_amended_budget zeroRespOracle memZ 10 (by decide)).1 1 0 0 0 (by decide),
   (C2_amended_budget zeroRespOracle memZ 10 (by decide)).2 0 0 15 0 (by decide)
     (by decide) (by decide)⟩

/-- On a payload of `0x7fffffff` bytes, against hardware that always
answers OK with next offset 0, the loop keeps sending full pages: after
`n` iterations it has transmitted `n` pages and is still running (the u32
budget comparison `xaction_bytes + chunksize > 2*totalsize` never fires:
once `xaction_bytes` wraps past 2^32 it restarts from small values). -/
theorem zeroResp_run (n : Nat) :
    ∀ b i, b < U32 → 4096 ∣ b →
      (staging_loop zeroRespOracle memZ 2147483647 n 0 b i).result = none ∧
      (staging_loop zeroRespOracle memZ 2147483647 n 0 b i).chunks =
        List.replicate n 4096 := by
  induction n with
  | zero => intro b i _ _; simp [staging_loop]
  | succ m ih =>
    intro b i hb hd
    have h1 : ¬ ((0 : Nat) = STAGING_OFFSET_END) := by decide
    have hchunk : get_chunksize 2147483647 0 = 4096 := by decide
    have hg : ¬ MBOX_XACTION_MAX 2147483647 < r32 (b + 4096) := by
      rw [show MBOX_XACTION_MAX 2147483647 = 4294967294 from by decide]
      unfold r32 U32
      unfold U32 at hb
      omega
    have hws : wait_for_xaction (zeroRespOracle i).statuses = UcodeState.ok := wait_allReady
    have hrs := zeroResp_state i
    have hro := zeroResp_offset i
    have hmod : r32 (b + 4096) < U32 := by
      unfold r32 U32
      omega
    have hdvd : 4096 ∣ r32 (b + 4096) := by
      unfold r32 U32
      omega
    obtain ⟨ih1, ih2⟩ := ih (r32 (b + 4096)) (i + 1) hmod hdvd
    simp [staging_loop, h1, hg, hws, hrs, hro, ih1, ih2, hchunk, List.replicate_succ]

/-- C2 counterexample: at `totalsize = 0x7fffffff` the u32 budget check
wraps, and the loop transmits chunks whose total exceeds twice the payload
size (2^32 bytes sent against a budget of 2^32 - 2). -/
theorem C2_counterexample :
    2 * 2147483647 <
      (staging_loop zeroRespOracle memZ 2147483647 1048576 0 0 0).chunks.sum := by
  have h := (zeroResp_run 1048576 0 0 (by decide) (by omega)).2
  rw [h, List.sum_replicate, smul_eq_mul]
  norm_num

/-- On a zero-size payload, against hardware that always answers OK with
next offset 0, every chunk is empty, the budget check `0 + 0 > 0` never
fires, and the loop never exits: the runaway-loop guard does not bound the
number of iterations. -/
theorem zeroResp_S0 (n : Nat) :
    ∀ i, (staging_loop zeroRespOracle memZ 0 n 0 0 i).result = none := by
  induction n with
  | zero => intro i; simp [staging_loop]
  | succ m ih =>
    intro i
    have h1 : ¬ ((0 : Nat) = STAGING_OFFSET_END) := by decide
    have hg : ¬ r32 (0 + get_chunksize 0 0) > MBOX_XACTION_MAX 0 := by decide
    have hws : wait_for_xaction (zeroRespOracle i).statuses = UcodeState.ok := wait_allReady
    have hrs := zeroResp_state i
    have hro := zeroResp_offset i
    simp [staging_loop, h1, hg, hws, hrs, hro,
      show get_chunksize 0 0 = 0 from by decide, show r32 0 = 0 from rfl]
    exact ih (i + 1)

/-- C3 counterexample: for payload size 0 and a hardware side that always
answers OK with next offset 0, the transfer loop never terminates — no
iteration bound makes it exit. -/
theorem C3_counterexample :
    ¬ ∃ n, ((staging_loop zeroRespOracle memZ 0 n 0 0 0).result).isSome = true := by
  rintro ⟨n, hn⟩
  rw [zeroResp_S0 n 0] at hn
  simp at hn

/-- C3 amended: the loop does terminate — within `2*totalsize + 2`
iterations — for every status/response sequence, provided the budget
comparison cannot wrap (`2*totalsize +` one page `< 2^32`), the payload is
nonempty, and no reported next-offset equals `totalsize` (a reported
offset of exactly `totalsize` yields an empty chunk and the loop can spin
forever, as the counterexample shows for `totalsize = 0`). -/
theorem C3_amended_termination (oracle : Nat → Resp) (mem : Nat → Nat) (S : Nat)
    (hS1 : 1 ≤ S) (hS : 2 * S + MBOX_XACTION_LEN < U32)
    (horacle : ∀ j, r32 ((oracle j).nextOffset) ≠ S) :
    ((staging_loop oracle mem S (2 * S + 2) 0 0 0).result).isSome = true := by
  have hU : U32 = 4294967296 := rfl
  have hlen : MBOX_XACTION_LEN = 4096 := rfl
  rw [hU, hlen] at hS
  have main : ∀ fuel off xb i, off % U32 ≠ S → xb ≤ 2 * S → 2 * S + 2 ≤ fuel + xb →
      ((staging_loop oracle mem S fuel off xb i).result).isSome = true := by
    intro fuel
    induction fuel with
    | zero =>
      intro off xb i _ hxb hf
      exact absurd hf (by omega)
    | succ n ih =>
      intro off xb i hoS hxb hf
      by_cases h1 : off = STAGING_OFFSET_END
      · simp [staging_loop, h1]
      · have hcpos : 1 ≤ get_chunksize S off := by
          unfold get_chunksize u32_sub MBOX_XACTION_LEN PAGE_SIZE
          unfold U32 at hoS ⊢
          omega
        have hcle : get_chunksize S off ≤ 4096 := by
          have := get_chunksize_le_len S off
          rw [hlen] at this
          exact this
        by_cases h2 : r32 (xb + get_chunksize S off) > MBOX_XACTION_MAX S
        · simp [staging_loop, h1, h2]
        · have hexact : r32 (xb + get_chunksize S off) = xb + get_chunksize S off := by
            unfold r32 U32
            omega
          have hle : xb + get_chunksize S off ≤ 2 * S := by
            have h2c := h2
            rw [hexact, show MBOX_XACTION_MAX S = 2 * S from by
              unfold MBOX_XACTION_MAX r32 U32; omega] at h2c
            omega
          by_cases h3 : wait_for_xaction (oracle i).statuses ≠ UcodeState.ok
          · simp [staging_loop, h1, h2, h3]
          · by_cases h4 : (read_xaction_response (oracle i)).state ≠ UcodeState.ok
            · simp [staging_loop, h1, h2, h3, h4]
            · simp [staging_loop, h1, h2, h3, h4]
              apply ih
              · rw [resp_offset]
                have hj := horacle i
                unfold r32 at hj ⊢
                unfold U32 at hj ⊢
                omega
              · rw [hexact]
                exact hle
              · rw [hexact]
                omega
  apply main
  · unfold U32
    omega
  · omega
  · omega

/-- Witness for C3: a transfer that times out on its first transaction
still terminates within the bound. -/
theorem C3_amended_termination_witness :
    (1 ≤ 4096 ∧ 2 * 4096 + MBOX_XACTION_LEN < U32) ∧
    ((staging_loop stuckOracle memZ 4096 (2 * 4096 + 2) 0 0 0).result).isSome = true :=
  ⟨⟨by decide, by decide⟩,
   C3_amended_termination stuckOracle memZ 4096 (by decide) (by decide)
     (fun j => by
       change r32 0 ≠ 4096
       decide)⟩

/-! ### C8: chunk count under well-behaved hardware -/

theorem staging_loop_step_result (oracle : Nat → Resp) (mem : Nat → Nat)
    (S fuel off xb i : Nat) (hoff : ¬ off = STAGING_OFFSET_END)
    (hg : ¬ MBOX_XACTION_MAX S < r32 (xb + get_chunksize S off))
    (hws : wait_for_xaction (oracle i).statuses = UcodeState.ok)
    (hrs : (read_xaction_response (oracle i)).state = UcodeState.ok) :
    (staging_loop oracle mem S (fuel + 1) off xb i).result =
      (staging_loop oracle mem S fuel (read_xaction_response (oracle i)).offset
        (r32 (xb + get_chunksize S off)) (i + 1)).result := by
  simp [staging_loop, hoff, hg, hws, hrs]

theorem staging_loop_step_chunks (oracle : Nat → Resp) (mem : Nat → Nat)
    (S fuel off xb i : Nat) (hoff : ¬ off = STAGING_OFFSET_END)
    (hg : ¬ MBOX_XACTION_MAX S < r32 (xb + get_chunksize S off))
    (hws : wait_for_xaction (oracle i).statuses = UcodeState.ok)
    (hrs : (read_xaction_response (oracle i)).state = UcodeState.ok) :
    (staging_loop oracle mem S (fuel + 1) off xb i).chunks =
      get_chunksize S off :: (staging_loop oracle mem S fuel
        (read_xaction_response (oracle i)).offset
        (r32 (xb + get_chunksize S off)) (i + 1)).chunks := by
  simp [staging_loop, hoff, hg, hws, hrs]

theorem staging_loop_end (oracle : Nat → Resp) (mem : Nat → Nat)
    (S fuel xb i : Nat) :
    staging_loop oracle mem S (fuel + 1) STAGING_OFFSET_END xb i =
      { result := some UcodeState.ok, chunks := [], done := true,
        finalOffset := STAGING_OFFSET_END, trace := [] } := by
  simp [staging_loop]

theorem goodOracle_state (S i : Nat) :
    (read_xaction_response (goodOracle S i)).state = UcodeState.ok := by
  show (if read_mbox_val (goodOracle S i).flags &&& MASK_MBOX_RESP_ERROR ≠ 0
      then UcodeState.error else UcodeState.ok) = UcodeState.ok
  rw [show (goodOracle S i).flags = MASK_MBOX_RESP_SUCCESS from rfl]
  decide

/-- Against the well-behaved hardware `goodOracle S`, starting the loop at
offset `4096*k` with `4096*k` bytes already transacted, the transfer
completes successfully and sends exactly `n` more chunks, where `n` is
pinned by `4096*(k+n-1) < S ≤ 4096*(k+n)`. -/
theorem goodOracle_count (S : Nat) (hS2 : S < 2147483648) :
    ∀ n k, 4096 * k < S → S ≤ 4096 * (k + n) → 4096 * (k + n - 1) < S →
      ((staging_loop (goodOracle S) memZ S (n + 1) (4096 * k) (4096 * k) k).result =
        some UcodeState.ok ∧
       (staging_loop (goodOracle S) memZ S (n + 1) (4096 * k) (4096 * k) k).chunks.length =
        n) := by
  intro n
  induction n with
  | zero =>
    intro k h1 h2 _
    exact absurd h2 (by omega)
  | succ m ih =>
    intro k h1 h2 h3
    have hoffne : ¬ (4096 * k = STAGING_OFFSET_END) := by
      unfold STAGING_OFFSET_END
      omega
    have hchunk : get_chunksize S (4096 * k) = min 4096 (S - 4096 * k) := by
      unfold get_chunksize u32_sub MBOX_XACTION_LEN PAGE_SIZE U32
      have h : (S + 4294967296 - 4096 * k % 4294967296) % 4294967296 = S - 4096 * k := by
        omega
      rw [h]
    have hg : ¬ MBOX_XACTION_MAX S < r32 (4096 * k + get_chunksize S (4096 * k)) := by
      rw [hchunk]
      unfold MBOX_XACTION_MAX r32 U32
      omega
    have hws : wait_for_xaction (goodOracle S k).statuses = UcodeState.ok := wait_allReady
    have hrs := goodOracle_state S k
    have hro : (read_xaction_response (goodOracle S k)).offset =
        r32 (if MBOX_XACTION_LEN * (k + 1) < S then MBOX_XACTION_LEN * (k + 1)
          else STAGING_OFFSET_END) := resp_offset _
    rw [staging_loop_step_result (goodOracle S) memZ S (m + 1) (4096 * k) (4096 * k) k
        hoffne hg hws hrs,
      staging_loop_step_chunks (goodOracle S) memZ S (m + 1) (4096 * k) (4096 * k) k
        hoffne hg hws hrs,
      hro]
    by_cases hnext : MBOX_XACTION_LEN * (k + 1) < S
    · have hnext4 : 4096 * (k + 1) < S := by
        unfold MBOX_XACTION_LEN PAGE_SIZE at hnext
        omega
      have hchunk4096 : get_chunksize S (4096 * k) = 4096 := by
        rw [hchunk]
        omega
      have hoffr : r32 (MBOX_XACTION_LEN * (k + 1)) = 4096 * (k + 1) := by
        unfold MBOX_XACTION_LEN PAGE_SIZE r32 U32
        omega
      have hxb : r32 (4096 * k + get_chunksize S (4096 * k)) = 4096 * (k + 1) := by
        rw [hchunk4096]
        unfold r32 U32
        omega
      obtain ⟨ih1, ih2⟩ := ih (k + 1) hnext4 (by omega) (by omega)
      rw [if_pos hnext, hoffr, hxb]
      exact ⟨ih1, by simp [ih2]⟩
    · have hm0 : m = 0 := by
        unfold MBOX_XACTION_LEN PAGE_SIZE at hnext
        omega
      subst hm0
      have hoffr : r32 STAGING_OFFSET_END = STAGING_OFFSET_END := by decide
      rw [if_neg hnext, hoffr, staging_loop_end]
      exact ⟨rfl, rfl⟩

/-- C8 counterexample: for `totalsize = 0`, hardware that (necessarily)
reports the sentinel on the first response still receives one (empty)
request: one request/wait/decode cycle occurs, but `⌈0 / 4096⌉ = 0`. -/
theorem C8_counterexample :
    (staging_loop (goodOracle 0) memZ 0 2 0 0 0).result = some UcodeState.ok ∧
    (staging_loop (goodOracle 0) memZ 0 2 0 0 0).chunks.length = 1 ∧
    (0 + 4095) / 4096 = 0 :=
  ⟨by decide, by decide, by decide⟩

/-- C8 amended: for every payload size `S` with `1 ≤ S < 2^31`, against
hardware that replies OK to every transaction with ordinary in-sequence
offsets (sentinel after the last byte), the transfer reaches DONE sending
exactly `⌈S / 4096⌉` chunks; in particular for `S` no larger than one
transaction chunk that count is 1. -/
theorem C8_amended_chunk_count (S : Nat) (h1 : 1 ≤ S) (h2 : S < 2147483648) :
    ((staging_loop (goodOracle S) memZ S ((S + 4095) / 4096 + 1) 0 0 0).result =
       some UcodeState.ok ∧
     (staging_loop (goodOracle S) memZ S ((S + 4095) / 4096 + 1) 0 0 0).chunks.length =
       (S + 4095) / 4096) ∧
    (S ≤ MBOX_XACTION_LEN → (S + 4095) / 4096 = 1) := by
  constructor
  · have h := goodOracle_count S h2 ((S + 4095) / 4096) 0 (by omega) (by omega) (by omega)
    simpa using h
  · intro hle
    unfold MBOX_XACTION_LEN PAGE_SIZE at hle
    omega

/-- Witness for C8 at `totalsize = 5000`: two chunks. -/
theorem C8_amended_chunk_count_witness :
    (1 ≤ 5000 ∧ 5000 < 2147483648) ∧
    (((staging_loop (goodOracle 5000) memZ 5000 ((5000 + 4095) / 4096 + 1) 0 0 0).result =
        some UcodeState.ok ∧
      (staging_loop (goodOracle 5000) memZ 5000 ((5000 + 4095) / 4096 + 1) 0 0 0).chunks.length =
        (5000 + 4095) / 4096) ∧
     (5000 ≤ MBOX_XACTION_LEN → (5000 + 4095) / 4096 = 1)) :=
  ⟨⟨by decide, by decide⟩, C8_amended_chunk_count 5000 (by decide) (by decide)⟩

end Staging
